import Mathlib

/-!
Verification of the RustCraft network transport layer.

The development shallowly embeds the transport code:
* the wire codec for the `Protocol` message union
  (src/Protocol/src/protocol.rs, bincode-style fixed-width encoding),
* the server connection systems `accept_connections` and `check_connections`
  (src/Server/src/transport/connection.rs),
* the client socket reader and writer tasks
  (src/Client/lib/rc_networking/src/client/mod.rs).

Machine integers are modelled as `Nat` (with explicit `% 2 ^ 64` where Rust
wrapping matters) or as `Fin (256 ^ k)` bit patterns for fixed-width fields;
`f32` fields are carried as their 32-bit patterns, which is exactly what the
codec moves over the wire.  Fallible operations return `Option`; a `none`
models a Rust panic (`unwrap`) or task abort.
-/

/-- A single octet on the wire. -/
abbrev Byte := Fin 256

/-- 64-bit field value, represented by its bit pattern. -/
abbrev U64 := Fin (256 ^ 8)

/-- 32-bit field value (also used for the bit pattern of an `f32`). -/
abbrev U32 := Fin (256 ^ 4)

/-- Little-endian byte decomposition of `n` into `k` bytes
(the fixed-width integer encoding used by bincode). -/
def toLE : Nat → Nat → List Byte
  | 0, _ => []
  | k + 1, n => ⟨n % 256, Nat.mod_lt _ (by norm_num)⟩ :: toLE k (n / 256)

/-- Little-endian recomposition of a byte list into a natural number. -/
def fromLE : List Byte → Nat
  | [] => 0
  | b :: bs => b.val + 256 * fromLE bs

/-- Big-endian byte decomposition (the network order used by tokio's
`write_u32` for the frame length). -/
def toBE (k n : Nat) : List Byte := (toLE k n).reverse

/-- Big-endian recomposition. -/
def fromBE (l : List Byte) : Nat := fromLE l.reverse

theorem toLE_length (k n : Nat) : (toLE k n).length = k := by
  induction k generalizing n with
  | zero => rfl
  | succ k ih => simp [toLE, ih]

theorem fromLE_toLE {k n : Nat} (h : n < 256 ^ k) : fromLE (toLE k n) = n := by
  induction k generalizing n with
  | zero =>
    simp [toLE, fromLE]
    omega
  | succ k ih =>
    have hdiv : n / 256 < 256 ^ k := by
      rw [Nat.div_lt_iff_lt_mul (by norm_num)]
      calc n < 256 ^ (k + 1) := h
        _ = 256 ^ k * 256 := by ring
    simp [toLE, fromLE, ih hdiv]
    omega

theorem fromLE_lt (l : List Byte) : fromLE l < 256 ^ l.length := by
  induction l with
  | nil => simp [fromLE]
  | cons b bs ih =>
    have hb : b.val < 256 := b.isLt
    simp only [fromLE, List.length_cons, pow_succ]
    have hpos : 1 ≤ 256 ^ bs.length := Nat.one_le_pow _ _ (by norm_num)
    omega

/-- Take exactly `k` bytes from the front; `none` when fewer are available. -/
def readN (k : Nat) (l : List Byte) : Option (List Byte × List Byte) :=
  if l.length < k then none else some (l.take k, l.drop k)

/-- Parse a `k`-byte little-endian fixed-width field. -/
def readF (k : Nat) (l : List Byte) : Option (Fin (256 ^ k) × List Byte) :=
  match readN k l with
  | none => none
  | some (bs, r) =>
      some (⟨fromLE bs % 256 ^ k, Nat.mod_lt _ (Nat.pos_pow_of_pos k (by norm_num))⟩, r)

/-- Parse a `k`-byte little-endian field as a bare `Nat`. -/
def readU (k : Nat) (l : List Byte) : Option (Nat × List Byte) :=
  match readN k l with
  | none => none
  | some (bs, r) => some (fromLE bs, r)

theorem readN_append {a : List Byte} {k : Nat} (r : List Byte) (h : a.length = k) :
    readN k (a ++ r) = some (a, r) := by
  subst h
  simp [readN, List.take_left, List.drop_left]

theorem readF_append (k : Nat) (v : Fin (256 ^ k)) (r : List Byte) :
    readF k (toLE k v.val ++ r) = some (v, r) := by
  rw [readF, readN_append r (toLE_length k v.val)]
  simp [fromLE_toLE v.isLt, Nat.mod_eq_of_lt v.isLt]

theorem readU_append {k n : Nat} (r : List Byte) (h : n < 256 ^ k) :
    readU k (toLE k n ++ r) = some (n, r) := by
  rw [readU, readN_append r (toLE_length k n)]
  simp [fromLE_toLE h]

/-- Encode a list of 32-bit elements back to back (bincode writes the
sequence elements in order after the length). -/
def encVec : List U32 → List Byte
  | [] => []
  | v :: vs => toLE 4 v.val ++ encVec vs

/-- Parse `n` consecutive 32-bit elements. -/
def readVec : Nat → List Byte → Option (List U32 × List Byte)
  | 0, l => some ([], l)
  | n + 1, l =>
    match readF 4 l with
    | none => none
    | some (v, r) =>
      match readVec n r with
      | none => none
      | some (vs, r2) => some (v :: vs, r2)

theorem readVec_append (vs : List U32) (r : List Byte) :
    readVec vs.length (encVec vs ++ r) = some (vs, r) := by
  induction vs generalizing r with
  | nil => simp [readVec, encVec]
  | cons v vs ih =>
    simp [readVec, encVec, List.append_assoc, readF_append 4 v (encVec vs ++ r), ih r]

/-- bincode length prefix for sequences: a u64 little-endian count. -/
def encLen (n : Nat) : List Byte := toLE 8 n


/-- Modelled from the spec: the heartbeat ping message
(src/Protocol clientbound/ping.rs is not under src/); it carries the
monotonically increasing counter read as `.code : u64` by
`check_connections` in src/Server/src/transport/connection.rs. -/
structure Ping where
  code : U64
deriving DecidableEq

/-- Modelled from the spec: the heartbeat pong message
(serverbound/pong.rs is not under src/); symmetric counter field, assigned
to `last_pong` by `check_connections`. -/
structure Pong where
  code : U64
deriving DecidableEq

/-- Modelled from the spec: player-join event carrying the joining
connection's 64-bit UserId (clientbound/player_join.rs is not under src/). -/
structure PlayerJoin where
  id : U64
deriving DecidableEq

/-- Modelled from the spec: player-move request; built in
src/Client/src/services/networking/location_sync.rs as
`PlayerMove::new(UserId(0), x, y, z)` with three `f32` coordinates, carried
here as 32-bit patterns. -/
structure PlayerMove where
  id : U64
  x : U32
  y : U32
  z : U32
deriving DecidableEq

/-- From src/lib/rc_networking/src/protocol/clientbound/entity_moved.rs:
`{ entity: EntityId, x: f32, y: f32, z: f32 }`; the floats are carried as
32-bit patterns and EntityId as a 64-bit id. -/
structure EntityMoved where
  entity : U64
  x : U32
  y : U32
  z : U32
deriving DecidableEq

/-- Modelled from the spec: player-rotate request with a quaternion of four
`f32` components (serverbound/player_rotate.rs is not under src/; the
commented call site in location_sync.rs passes four floats). -/
structure PlayerRotate where
  x : U32
  y : U32
  z : U32
  w : U32
deriving DecidableEq

/-- Modelled from the spec: entity-rotated event, entity id plus a
four-component quaternion (clientbound/entity_rotated.rs not under src/). -/
structure EntityRotated where
  entity : U64
  x : U32
  y : U32
  z : U32
  w : U32
deriving DecidableEq

/-- Modelled from the spec: player-leave event carrying the leaving
connection's UserId (clientbound/player_leave.rs not under src/). -/
structure PlayerLeave where
  id : U64
deriving DecidableEq

/-- Modelled from the spec: block-update event; the commented consumer in
src/Client/src/services/networking/chunk.rs reads `update.x/y/z` as a world
position and `update.id` as the block id written into the chunk array. -/
structure BlockUpdate where
  id : U32
  x : U32
  y : U32
  z : U32
deriving DecidableEq

/-- Modelled from the spec: chat message carrying its text as UTF-8 bytes
(clientbound/chat.rs not under src/). -/
structure ChatSent where
  message : List Byte
deriving DecidableEq

/-- Modelled from the spec: partial chunk update; the consumer in
src/Client/src/services/networking/chunk.rs reads `update.x/y/z` as the
chunk location and passes the block data on to the chunk service. -/
structure PartialChunkUpdate where
  x : U32
  y : U32
  z : U32
  data : List U32
deriving DecidableEq

/-- Modelled from the spec: authenticate request sent by a client, carrying
its claimed name as bytes (serverbound/authenticate.rs not under src/). -/
structure UserAuthenticate where
  name : List Byte
deriving DecidableEq

/-- Modelled from the spec: spawn-entity event, entity id plus a spawn
position of three `f32` components (clientbound/spawn_entity.rs not under
src/). -/
structure SpawnEntity where
  entity : U64
  x : U32
  y : U32
  z : U32
deriving DecidableEq

/-- The closed message union from src/Protocol/src/protocol.rs, with its
fourteen variants in declaration order (the order fixes the bincode variant
tag).  `Disconnect` (serverbound/disconnect.rs, not under src/) is modelled
from the spec as a field-free variant. -/
inductive Protocol where
  | ping (p : Ping)
  | pong (p : Pong)
  | playerJoin (p : PlayerJoin)
  | playerMove (p : PlayerMove)
  | entityMoved (p : EntityMoved)
  | playerRotate (p : PlayerRotate)
  | entityRotated (p : EntityRotated)
  | playerLeave (p : PlayerLeave)
  | blockUpdate (p : BlockUpdate)
  | chatSent (p : ChatSent)
  | partialChunkUpdate (p : PartialChunkUpdate)
  | userAuthenticate (p : UserAuthenticate)
  | spawnEntity (p : SpawnEntity)
  | disconnect
deriving DecidableEq

/-- The bincode variant tag of a message: the declaration index of its
variant in the `Protocol` enum. -/
def tagOf : Protocol → Nat
  | .ping _ => 0
  | .pong _ => 1
  | .playerJoin _ => 2
  | .playerMove _ => 3
  | .entityMoved _ => 4
  | .playerRotate _ => 5
  | .entityRotated _ => 6
  | .playerLeave _ => 7
  | .blockUpdate _ => 8
  | .chatSent _ => 9
  | .partialChunkUpdate _ => 10
  | .userAuthenticate _ => 11
  | .spawnEntity _ => 12
  | .disconnect => 13

/-- Field bytes of a message (everything after the variant tag), in
bincode's layout: fixed-width little-endian numerics, and sequences as a
u64 count followed by the elements. -/
def payloadOf : Protocol → List Byte
  | .ping p => toLE 8 p.code.val
  | .pong p => toLE 8 p.code.val
  | .playerJoin p => toLE 8 p.id.val
  | .playerMove p =>
      toLE 8 p.id.val ++ (toLE 4 p.x.val ++ (toLE 4 p.y.val ++ toLE 4 p.z.val))
  | .entityMoved p =>
      toLE 8 p.entity.val ++ (toLE 4 p.x.val ++ (toLE 4 p.y.val ++ toLE 4 p.z.val))
  | .playerRotate p =>
      toLE 4 p.x.val ++ (toLE 4 p.y.val ++ (toLE 4 p.z.val ++ toLE 4 p.w.val))
  | .entityRotated p =>
      toLE 8 p.entity.val ++
        (toLE 4 p.x.val ++ (toLE 4 p.y.val ++ (toLE 4 p.z.val ++ toLE 4 p.w.val)))
  | .playerLeave p => toLE 8 p.id.val
  | .blockUpdate p =>
      toLE 4 p.id.val ++ (toLE 4 p.x.val ++ (toLE 4 p.y.val ++ toLE 4 p.z.val))
  | .chatSent p => encLen p.message.length ++ p.message
  | .partialChunkUpdate p =>
      toLE 4 p.x.val ++
        (toLE 4 p.y.val ++ (toLE 4 p.z.val ++ (encLen p.data.length ++ encVec p.data)))
  | .userAuthenticate p => encLen p.name.length ++ p.name
  | .spawnEntity p =>
      toLE 8 p.entity.val ++ (toLE 4 p.x.val ++ (toLE 4 p.y.val ++ toLE 4 p.z.val))
  | .disconnect => []

/-- `encode(Message) -> bytes`: a 4-byte little-endian variant tag followed
by the variant's field bytes (bincode's legacy fixed-int configuration, as
used by `bincode::serialize` in the repository). -/
def encodeProtocol (m : Protocol) : List Byte :=
  toLE 4 (tagOf m) ++ payloadOf m


/-- `decode(bytes) -> Message`: reads the 4-byte variant tag, then the
variant's fields; any truncation or out-of-range tag is a malformed-payload
failure (`none`). -/
def decodeProtocol (l : List Byte) : Option Protocol :=
  match readU 4 l with
  | none => none
  | some (tag, r) =>
    match tag with
    | 0 => do
      let (c, _) ← readF 8 r
      pure (.ping ⟨c⟩)
    | 1 => do
      let (c, _) ← readF 8 r
      pure (.pong ⟨c⟩)
    | 2 => do
      let (i, _) ← readF 8 r
      pure (.playerJoin ⟨i⟩)
    | 3 => do
      let (i, r1) ← readF 8 r
      let (x, r2) ← readF 4 r1
      let (y, r3) ← readF 4 r2
      let (z, _) ← readF 4 r3
      pure (.playerMove ⟨i, x, y, z⟩)
    | 4 => do
      let (e, r1) ← readF 8 r
      let (x, r2) ← readF 4 r1
      let (y, r3) ← readF 4 r2
      let (z, _) ← readF 4 r3
      pure (.entityMoved ⟨e, x, y, z⟩)
    | 5 => do
      let (x, r1) ← readF 4 r
      let (y, r2) ← readF 4 r1
      let (z, r3) ← readF 4 r2
      let (w, _) ← readF 4 r3
      pure (.playerRotate ⟨x, y, z, w⟩)
    | 6 => do
      let (e, r1) ← readF 8 r
      let (x, r2) ← readF 4 r1
      let (y, r3) ← readF 4 r2
      let (z, r4) ← readF 4 r3
      let (w, _) ← readF 4 r4
      pure (.entityRotated ⟨e, x, y, z, w⟩)
    | 7 => do
      let (i, _) ← readF 8 r
      pure (.playerLeave ⟨i⟩)
    | 8 => do
      let (i, r1) ← readF 4 r
      let (x, r2) ← readF 4 r1
      let (y, r3) ← readF 4 r2
      let (z, _) ← readF 4 r3
      pure (.blockUpdate ⟨i, x, y, z⟩)
    | 9 => do
      let (n, r1) ← readU 8 r
      let (bs, _) ← readN n r1
      pure (.chatSent ⟨bs⟩)
    | 10 => do
      let (x, r1) ← readF 4 r
      let (y, r2) ← readF 4 r1
      let (z, r3) ← readF 4 r2
      let (n, r4) ← readU 8 r3
      let (vs, _) ← readVec n r4
      pure (.partialChunkUpdate ⟨x, y, z, vs⟩)
    | 11 => do
      let (n, r1) ← readU 8 r
      let (bs, _) ← readN n r1
      pure (.userAuthenticate ⟨bs⟩)
    | 12 => do
      let (e, r1) ← readF 8 r
      let (x, r2) ← readF 4 r1
      let (y, r3) ← readF 4 r2
      let (z, _) ← readF 4 r3
      pure (.spawnEntity ⟨e, x, y, z⟩)
    | 13 => pure .disconnect
    | _ => none

/-- Well-formedness carried by the Rust types for free: every `Vec`/`String`
length is a `usize`, hence below `2 ^ 64`. -/
def wfProtocol : Protocol → Prop
  | .chatSent p => p.message.length < 256 ^ 8
  | .partialChunkUpdate p => p.data.length < 256 ^ 8
  | .userAuthenticate p => p.name.length < 256 ^ 8
  | _ => True

instance (m : Protocol) : Decidable (wfProtocol m) := by
  cases m <;> simp only [wfProtocol] <;> infer_instance

theorem readN_exact {a : List Byte} {k : Nat} (h : a.length = k) :
    readN k a = some (a, []) := by
  simpa using readN_append [] h

theorem readF_exact (k : Nat) (v : Fin (256 ^ k)) :
    readF k (toLE k v.val) = some (v, []) := by
  simpa using readF_append k v []

theorem readU_exact {k n : Nat} (h : n < 256 ^ k) :
    readU k (toLE k n) = some (n, []) := by
  simpa using readU_append [] h

theorem readVec_exact (vs : List U32) :
    readVec vs.length (encVec vs) = some (vs, []) := by
  simpa using readVec_append vs []

theorem decode_encode (m : Protocol) (h : wfProtocol m) :
    decodeProtocol (encodeProtocol m) = some m := by
  cases m with
  | chatSent p =>
    have hlen : p.message.length < 256 ^ 8 := h
    simp [encodeProtocol, payloadOf, tagOf, decodeProtocol, encLen,
      readU_append _ (by norm_num : (9 : Nat) < 256 ^ 4), List.append_assoc,
      readU_append _ hlen, readN_exact rfl]
  | userAuthenticate p =>
    have hlen : p.name.length < 256 ^ 8 := h
    simp [encodeProtocol, payloadOf, tagOf, decodeProtocol, encLen,
      readU_append _ (by norm_num : (11 : Nat) < 256 ^ 4), List.append_assoc,
      readU_append _ hlen, readN_exact rfl]
  | partialChunkUpdate p =>
    have hlen : p.data.length < 256 ^ 8 := h
    simp [encodeProtocol, payloadOf, tagOf, decodeProtocol, encLen,
      readU_append _ (by norm_num : (10 : Nat) < 256 ^ 4), List.append_assoc,
      readF_append, readU_append _ hlen, readVec_exact]
  | disconnect =>
    simp [encodeProtocol, payloadOf, tagOf, decodeProtocol,
      readU_exact (by norm_num : (13 : Nat) < 256 ^ 4)]
  | _ =>
    simp [encodeProtocol, payloadOf, tagOf, decodeProtocol,
      readU_append _ (by norm_num : (0 : Nat) < 256 ^ 4),
      readU_append _ (by norm_num : (1 : Nat) < 256 ^ 4),
      readU_append _ (by norm_num : (2 : Nat) < 256 ^ 4),
      readU_append _ (by norm_num : (3 : Nat) < 256 ^ 4),
      readU_append _ (by norm_num : (4 : Nat) < 256 ^ 4),
      readU_append _ (by norm_num : (5 : Nat) < 256 ^ 4),
      readU_append _ (by norm_num : (6 : Nat) < 256 ^ 4),
      readU_append _ (by norm_num : (7 : Nat) < 256 ^ 4),
      readU_append _ (by norm_num : (8 : Nat) < 256 ^ 4),
      readU_append _ (by norm_num : (12 : Nat) < 256 ^ 4),
      List.append_assoc, readF_append, readF_exact]


/-! ## Server transport (src/Server/src/transport/connection.rs) -/

/-- `MAX_PING_TIMEOUT_SECONDS` from connection.rs line 19. -/
def MAX_PING_TIMEOUT_SECONDS : Nat := 10

/-- `PING_TIME_SECONDS` from connection.rs line 20. -/
def PING_TIME_SECONDS : Nat := 15

/-- The listening-socket token `SERVER = Token(0)` from connection.rs
line 22 (tokens are carried as their numeric value). -/
def SERVER : Nat := 0

/-- Wrapping u64 subtraction, the release-mode semantics of
`Ping::new().code - stream.last_ping.code` (both operands below `2 ^ 64`). -/
def u64sub (a b : Nat) : Nat := (2 ^ 64 + a - b) % 2 ^ 64

/-- Per-connection session state of an `UnauthorizedUser`: the counter of
the last ping sent, the counter of the last pong received, and the
disconnect flag read by the removal sweep in `accept_connections`.
The ping/pong counters are held as plain `Nat` counter values. -/
structure ClientState where
  last_ping : Nat
  last_pong : Nat
  disconnected : Bool
deriving DecidableEq

/-- The `TransportSystem` resource: process-wide connection counter plus
the `unauth_clients` table keyed by the numeric UserId. -/
structure TransportSystem where
  total_connections : Nat
  unauth_clients : List (Nat × ClientState)
deriving DecidableEq

/-- The removal sweep at the top of `accept_connections` (lines 27-40):
every client whose `disconnected` flag is set is removed from the table
(and deregistered from the poller); the connection counter is untouched. -/
def remove_disconnected (s : TransportSystem) : TransportSystem :=
  { s with unauth_clients := s.unauth_clients.filter (fun e => !e.2.disconnected) }

/-- One result of `user.stream.read_packet()` as matched by the drain loop
in `accept_connections` (lines 96-122). -/
inductive ReadResult where
  | ok (p : Protocol)
  | errWouldBlock
  | errInterrupted
  | errUnexpectedEof
  | errBincode
  | errDisconnected
  | errOther
deriving DecidableEq

/-- A log line emitted inside the drain loop; the only log call in the loop
is `info!("Packet {:?}", n)` on a successful read (line 98). -/
inductive LogEntry where
  | packetInfo (p : Protocol)
deriving DecidableEq

/-- Observable outcome of one run of the drain loop for one token:
packets forwarded to `packet_event_writer`, log lines emitted, the local
`client_disconnect` flag, and whether the loop panicked
(`Err(err) => panic!` on line 121). -/
structure DrainOutcome where
  packets : List Protocol
  logs : List LogEntry
  clientDisconnect : Bool
  panicked : Bool
deriving DecidableEq

/-- The drain loop of `accept_connections` (lines 95-123), run over the
successive results `read_packet` returns during one readiness event:
* `Ok(n)`: log and forward the packet, keep reading;
* `WouldBlock`: stop draining, the socket is simply empty;
* `Interrupted`: retry immediately;
* `UnexpectedEof`: the arm's body is entirely commented out, so the loop
  just reads again;
* `Bincode` decode failure and `Disconnected`: set `client_disconnect` and
  stop;
* any other error: `panic!`. -/
def drainLoop : List ReadResult → DrainOutcome
  | [] => ⟨[], [], false, false⟩
  | .ok p :: rs =>
      let o := drainLoop rs
      ⟨p :: o.packets, .packetInfo p :: o.logs, o.clientDisconnect, o.panicked⟩
  | .errWouldBlock :: _ => ⟨[], [], false, false⟩
  | .errInterrupted :: rs => drainLoop rs
  | .errUnexpectedEof :: rs => drainLoop rs
  | .errBincode :: _ => ⟨[], [], true, false⟩
  | .errDisconnected :: _ => ⟨[], [], true, false⟩
  | .errOther :: _ => ⟨[], [], false, true⟩

/-- The post-drain cleanup for a connection token (lines 126-132): when the
drain loop set `client_disconnect`, the client is removed from the table
(and deregistered); otherwise the table — and thus the poller registration,
which tracks table membership — is untouched. -/
def afterReadEvent (uid : Nat) (rs : List ReadResult)
    (table : List (Nat × ClientState)) : List (Nat × ClientState) :=
  if (drainLoop rs).clientDisconnect then table.filter (fun e => e.1 ≠ uid) else table

/-- One result of `stream.stream().accept()` in the `SERVER` arm of
`accept_connections` (lines 51-66): a new connection, `WouldBlock`
(stop accepting), or another error (log and continue). -/
inductive AcceptResult where
  | conn
  | wouldBlock
  | acceptErr
deriving DecidableEq

/-- What one accepted connection receives: its UserId
(`UserId(system.total_connections as u64)`, line 71) and its poller token
(`Token(system.total_connections)`, line 77), both taken from the counter
after the `system.total_connections += 1` on line 68. -/
structure Accepted where
  uid : Nat
  token : Nat
deriving DecidableEq

/-- The accept loop of the `SERVER` token arm (lines 49-86), threading the
`total_connections` counter (a 64-bit `usize`, wrapping on increment):
returns the final counter and the accepted connections in order. -/
def accept_loop (t : Nat) : List AcceptResult → Nat × List Accepted
  | [] => (t, [])
  | .wouldBlock :: _ => (t, [])
  | .acceptErr :: rs => accept_loop t rs
  | .conn :: rs =>
      let t2 := (t + 1) % 2 ^ 64
      let rec2 := accept_loop t2 rs
      (rec2.1, ⟨t2, t2⟩ :: rec2.2)

/-- First phase of `check_connections` for one client (lines 140-154).
`now` is the counter value `Ping::new().code` carries during this run;
`wOk` is whether `stream.write_packet(Ping)` succeeds — its `.unwrap()`
(line 144) panics on failure, modelled as `none`.  When a ping is due it is
sent and `last_ping` is refreshed, then the timeout test compares `now`
against the (possibly just-refreshed) `last_ping`. -/
def ping_client (now : Nat) (wOk : Bool) (c : ClientState) : Option ClientState :=
  let step1 : Option ClientState :=
    if u64sub now c.last_ping > PING_TIME_SECONDS then
      if wOk then some { c with last_ping := now } else none
    else some c
  match step1 with
  | none => none
  | some c1 =>
      if u64sub now c1.last_ping > PING_TIME_SECONDS + MAX_PING_TIMEOUT_SECONDS then
        some { c1 with disconnected := true }
      else some c1

/-- The ping/timeout sweep over the whole client table. -/
def ping_phase (now : Nat) (wOk : Nat → Bool) :
    List (Nat × ClientState) → Option (List (Nat × ClientState))
  | [] => some []
  | (uid, c) :: rest =>
    match ping_client now (wOk uid) c with
    | none => none
    | some c2 =>
      match ping_phase now wOk rest with
      | none => none
      | some rest2 => some ((uid, c2) :: rest2)

/-- `HashMap::get_mut` lookup on the client table. -/
def lookupClient (uid : Nat) : List (Nat × ClientState) → Option ClientState
  | [] => none
  | (k, c) :: rest => if k = uid then some c else lookupClient uid rest

/-- Write `last_pong` of the entry for `uid`. -/
def setPong (uid code : Nat) (table : List (Nat × ClientState)) :
    List (Nat × ClientState) :=
  table.map (fun e => if e.1 = uid then (e.1, { e.2 with last_pong := code }) else e)

/-- Handling of one `ReceivePacket` event in the second loop of
`check_connections` (lines 157-161): a `Pong` updates that Session's
`last_pong` through `get_mut(user).unwrap()` — the `unwrap` panics
(`none`) when the UserId is no longer in the table; every other message is
skipped by the `if let`. -/
def applyPongEvent (table : List (Nat × ClientState)) (ev : Protocol × Nat) :
    Option (List (Nat × ClientState)) :=
  match ev with
  | (.pong p, uid) =>
    match lookupClient uid table with
    | some _ => some (setPong uid p.code.val table)
    | none => none
  | _ => some table

/-- The event loop of `check_connections` over this run's queued
`ReceivePacket` events. -/
def pong_phase (table : List (Nat × ClientState)) :
    List (Protocol × Nat) → Option (List (Nat × ClientState))
  | [] => some table
  | ev :: evs =>
    match applyPongEvent table ev with
    | none => none
    | some t2 => pong_phase t2 evs

/-- The whole `check_connections` system (lines 139-162): the
ping/timeout sweep followed by the pong-event loop.  `none` models a
panic of the system. -/
def check_connections (now : Nat) (wOk : Nat → Bool)
    (table : List (Nat × ClientState)) (evs : List (Protocol × Nat)) :
    Option (List (Nat × ClientState)) :=
  match ping_phase now wOk table with
  | none => none
  | some t2 => pong_phase t2 evs


/-! ## Client transport bridge
(src/Client/lib/rc_networking/src/client/mod.rs) -/

/-- The reader task spawned by `ClientSocket::listen` (lines 59-72), run
over the raw bytes arriving on the socket.  Per iteration the source:
* awaits `read_u32` — a 4-byte big-endian length prefix; an error (end of
  stream before 4 bytes) ends the `while let`, terminating the task
  cleanly (`some` of the packets pushed so far);
* allocates `Vec::with_capacity(len)` — a buffer of LENGTH ZERO — and then
  evaluates `let _ = read_tcp.read_exact(&mut data);`, which builds the
  future but never awaits it, so no payload byte is ever consumed and
  `data` stays empty;
* calls `bincode::deserialize::<Protocol>(&data).unwrap()` on that empty
  buffer — the `unwrap` of the decode result panics (`none`) whenever the
  decode fails;
* on success would push `ReceivePacket(packet, UserId(0))` on the inbound
  channel. -/
def readerLoop : List Byte → Option (List (Protocol × Nat))
  | _b0 :: _b1 :: _b2 :: _b3 :: rest =>
    match decodeProtocol [] with
    | none => none
    | some p =>
      match readerLoop rest with
      | none => none
      | some ps => some ((p, 0) :: ps)
  | _ => some []

/-- One client frame as the server's writer produces it and as the reader
task expects it: 4-byte big-endian length prefix, then the encoded payload. -/
def mkFrame (m : Protocol) : List Byte :=
  toBE 4 (encodeProtocol m).length ++ encodeProtocol m

/-- Outcome fates of the three awaited I/O operations the writer task
performs per message: the `write_u32` length write, the `write_all`
payload write, and the `flush`. -/
structure WriteFate where
  headerOk : Bool
  bodyOk : Bool
  flushOk : Bool
deriving DecidableEq

/-- The writer task spawned by `ClientSocket::listen` (lines 75-103), run
over the messages dequeued from the outbound channel, each paired with the
fates of its I/O operations; returns the bytes written to the socket.
Per message the source: encodes with `bincode::serialize` (total for this
schema; its error arm is dead), then `write_u32(packet.len() as u32)`
big-endian (the cast truncates mod `2 ^ 32`, which `toBE 4` mirrors), then
`write_all(&packet)`, then `flush()`; any failing stage `break`s the loop,
so nothing further is written. -/
def writerLoop : List (Protocol × WriteFate) → List Byte
  | [] => []
  | (p, f) :: rest =>
    let body := encodeProtocol p
    if f.headerOk then
      toBE 4 body.length ++
        (if f.bodyOk then body ++ (if f.flushOk then writerLoop rest else []) else [])
    else []


/-! ## Helper lemmas -/

theorem accept_loop_spec (t : Nat) (rs : List AcceptResult) (h : t + rs.length < 2 ^ 64) :
    List.Pairwise (fun a b : Accepted => a.uid < b.uid) (accept_loop t rs).2 ∧
    (∀ a ∈ (accept_loop t rs).2,
      t < a.uid ∧ a.uid ≤ (accept_loop t rs).1 ∧ a.token = a.uid) ∧
    t ≤ (accept_loop t rs).1 := by
  induction rs generalizing t with
  | nil =>
    simp [accept_loop]
  | cons r rs ih =>
    cases r with
    | wouldBlock => simp [accept_loop]
    | acceptErr =>
      have hlen : t + rs.length < 2 ^ 64 := by
        simp only [List.length_cons] at h
        omega
      simpa [accept_loop] using ih t hlen
    | conn =>
      have ht2 : (t + 1) % 2 ^ 64 = t + 1 := by
        apply Nat.mod_eq_of_lt
        simp only [List.length_cons] at h
        omega
      have hlen : (t + 1) + rs.length < 2 ^ 64 := by
        simp only [List.length_cons] at h
        omega
      obtain ⟨ihp, ihm, ihc⟩ := ih (t + 1) hlen
      refine ⟨?_, ?_, ?_⟩
      · simp only [accept_loop, ht2]
        exact List.Pairwise.cons (fun b hb => (ihm b hb).1) ihp
      · simp only [accept_loop, ht2]
        intro a ha
        rw [List.mem_cons] at ha
        rcases ha with ha | ha
        · subst ha
          exact ⟨Nat.lt_succ_self t, ihc, rfl⟩
        · obtain ⟨h1, h2, h3⟩ := ihm a ha
          exact ⟨Nat.lt_of_succ_lt h1, h2, h3⟩
      · simp only [accept_loop, ht2]
        omega


/-! ## Claim theorems -/

/-- C1 (code bug): keepalive eviction is unreachable.  The timeout test on
line 149 of connection.rs compares `Ping::new().code` against `last_ping`
— the counter of the last ping SENT, which the branch just above refreshed
— rather than against `last_pong` as the code's own comment ("If the last
recieved ping was over the timeout seconds ago") and the spec intend.
Concretely: a Session whose first ping went out at counter 0 and that has
sent no pong at all is still not flagged `disconnected` when the counter
reaches 26 (gap 26 > PING_TIME_SECONDS + MAX_PING_TIMEOUT_SECONDS = 25),
nor at counter 1000000; `check_connections` merely refreshes `last_ping`. -/
theorem check_connections_keepalive_never_evicts :
    check_connections 26 (fun _ => true)
        [(1, ⟨0, 0, false⟩)] [] = some [(1, ⟨26, 0, false⟩)] ∧
    check_connections 1000000 (fun _ => true)
        [(1, ⟨0, 0, false⟩)] [] = some [(1, ⟨1000000, 0, false⟩)] := by
  exact ⟨rfl, rfl⟩

/-- C2 (confirmed): codec round-trip.  For every value of the fourteen-
variant `Protocol` union whose sequence fields have `usize`-representable
lengths (true of every Rust value), decoding the encoding yields the same
value, and encoding is deterministic: equal values encode to identical
byte sequences. -/
theorem protocol_roundtrip_deterministic (m : Protocol) (h : wfProtocol m) :
    decodeProtocol (encodeProtocol m) = some m ∧
    ∀ m2 : Protocol, m2 = m → encodeProtocol m2 = encodeProtocol m := by
  refine ⟨decode_encode m h, ?_⟩
  intro m2 hm
  rw [hm]

/-- Witness for C2 at a concrete message. -/
theorem protocol_roundtrip_deterministic_witness :
    wfProtocol (Protocol.chatSent ⟨[72, 105]⟩) ∧
    decodeProtocol (encodeProtocol (Protocol.chatSent ⟨[72, 105]⟩)) =
      some (Protocol.chatSent ⟨[72, 105]⟩) :=
  ⟨by decide, (protocol_roundtrip_deterministic (Protocol.chatSent ⟨[72, 105]⟩) (by decide)).1⟩

/-- C3 (code bug): the client reader task never reads the payload.  After
reading the 4-byte length prefix it allocates `Vec::with_capacity(len)` — a
buffer of length zero — and then discards the `read_exact` future without
awaiting it (`let _ = read_tcp.read_exact(&mut data);`, line 64), so zero
payload bytes are consumed and `bincode::deserialize::<Protocol>` runs on
an empty buffer, whose `.unwrap()` panics.  On the very first well-formed
frame (here: an encoded `Ping`) the task panics (`none`) and pushes
nothing onto the inbound channel, instead of reading `len` bytes and
delivering the decoded message tagged with UserId 0. -/
theorem client_reader_never_reads_payload :
    readerLoop (mkFrame (Protocol.ping ⟨0⟩)) = none ∧
    decodeProtocol [] = none := by
  exact ⟨rfl, rfl⟩

/-- C4 counterexample: a pong whose origin UserId is no longer in the
Session table is NOT silently ignored — `get_mut(user).unwrap()` on
line 159 of connection.rs panics, modelled as `none` (a silent ignore
would be `some []`, the unchanged empty table). -/
theorem pong_unknown_session_panics :
    check_connections 0 (fun _ => true) [] [(Protocol.pong ⟨5⟩, 7)] = none := by
  rfl

/-- C4 (corrected): a received pong for a UserId present in the Session
table updates that Session's `last_pong` record; but a pong for an
already-removed UserId panics the system via `.unwrap()` instead of being
silently ignored. -/
theorem pong_updates_present_or_panics (table : List (Nat × ClientState))
    (uid : Nat) (p : Pong) :
    (lookupClient uid table = none →
      applyPongEvent table (.pong p, uid) = none) ∧
    (∀ c, lookupClient uid table = some c →
      applyPongEvent table (.pong p, uid) = some (setPong uid p.code.val table)) := by
  constructor
  · intro h
    simp [applyPongEvent, h]
  · intro c h
    simp [applyPongEvent, h]

/-- Witness for C4 at concrete tables. -/
theorem pong_updates_present_or_panics_witness :
    applyPongEvent [] (Protocol.pong ⟨5⟩, 7) = none ∧
    applyPongEvent [(7, ⟨0, 0, false⟩)] (Protocol.pong ⟨5⟩, 7) =
      some (setPong 7 (5 : U64).val [(7, ⟨0, 0, false⟩)]) :=
  ⟨(pong_updates_present_or_panics [] 7 ⟨5⟩).1 rfl,
   (pong_updates_present_or_panics [(7, ⟨0, 0, false⟩)] 7 ⟨5⟩).2 ⟨0, 0, false⟩ rfl⟩

/-- C5 (confirmed): across the accepted connections of a run of the accept
loop (counter starting at `t`, no counter wraparound), the assigned
UserIds are pairwise distinct and strictly increasing in acceptance order;
every assigned UserId strictly exceeds the starting counter and is bounded
by the final counter, the counter never decreases, and the
disconnected-client sweep never touches the counter — so a UserId is never
reassigned or reused after its connection disconnects. -/
theorem accept_uids_strictly_increasing (t : Nat) (rs : List AcceptResult)
    (h : t + rs.length < 2 ^ 64) :
    List.Pairwise (fun a b : Accepted => a.uid < b.uid) (accept_loop t rs).2 ∧
    (∀ a ∈ (accept_loop t rs).2, t < a.uid ∧ a.uid ≤ (accept_loop t rs).1) ∧
    t ≤ (accept_loop t rs).1 ∧
    (∀ s : TransportSystem,
      (remove_disconnected s).total_connections = s.total_connections) := by
  obtain ⟨hp, hm, hc⟩ := accept_loop_spec t rs h
  exact ⟨hp, fun a ha => ⟨(hm a ha).1, (hm a ha).2.1⟩, hc, fun s => rfl⟩

/-- Witness for C5: three connections accepted from a fresh counter. -/
theorem accept_uids_strictly_increasing_witness :
    0 + ([AcceptResult.conn, .conn, .conn] : List AcceptResult).length < 2 ^ 64 ∧
    (List.Pairwise (fun a b : Accepted => a.uid < b.uid)
        (accept_loop 0 [AcceptResult.conn, .conn, .conn]).2 ∧
      (∀ a ∈ (accept_loop 0 [AcceptResult.conn, .conn, .conn]).2,
        0 < a.uid ∧ a.uid ≤ (accept_loop 0 [AcceptResult.conn, .conn, .conn]).1) ∧
      0 ≤ (accept_loop 0 [AcceptResult.conn, .conn, .conn]).1 ∧
      (∀ s : TransportSystem,
        (remove_disconnected s).total_connections = s.total_connections)) :=
  ⟨by norm_num,
   accept_uids_strictly_increasing 0 [AcceptResult.conn, .conn, .conn] (by norm_num)⟩

/-- C6 counterexample: an `UnexpectedEof` from `read_packet` is NOT
logged.  The arm's body (lines 105-109) is entirely commented out, so the
drain loop emits no log entry, sets no flag, and just reads again; the
claim's "the condition is logged" is false at this concrete run. -/
theorem eof_emits_no_log :
    drainLoop [.errUnexpectedEof, .errWouldBlock] = ⟨[], [], false, false⟩ := by
  rfl

/-- C6 (corrected): an `UnexpectedEof` on the server read path is silently
ignored — not logged — and the read loop continues exactly as if the
result had not occurred; the Session is not marked disconnected and,
since the post-drain cleanup only removes a client whose drain set
`client_disconnect`, it remains in the Session table (and hence
registered with the poller). -/
theorem eof_silently_skipped (rs : List ReadResult) (uid : Nat)
    (table : List (Nat × ClientState)) :
    drainLoop (.errUnexpectedEof :: rs) = drainLoop rs ∧
    afterReadEvent uid [.errUnexpectedEof, .errWouldBlock] table = table := by
  constructor
  · rfl
  · simp [afterReadEvent, drainLoop]

/-- C7 counterexample: a failed write of a ping is NOT contained to the
connection — `write_packet(...).unwrap()` on line 144 of connection.rs
panics the whole `check_connections` system (modelled as `none`) when the
write fails for the one client due a ping. -/
theorem ping_write_failure_panics :
    check_connections 26 (fun _ => false) [(1, ⟨0, 0, false⟩)] [] = none := by
  rfl

/-- C7 (corrected): a bincode decode failure and a `Disconnected` error on
a connection terminate only that connection (the drain loop sets the
per-connection `client_disconnect` flag and stops, without panicking);
but a failed write of a ping panics the process via `.unwrap()`, and so
does a pong referencing a UserId absent from the Session table. -/
theorem fatal_condition_policy (rs : List ReadResult) (now uid : Nat)
    (c : ClientState) (table : List (Nat × ClientState)) (p : Pong) :
    drainLoop (.errBincode :: rs) = ⟨[], [], true, false⟩ ∧
    drainLoop (.errDisconnected :: rs) = ⟨[], [], true, false⟩ ∧
    (u64sub now c.last_ping > PING_TIME_SECONDS → ping_client now false c = none) ∧
    (lookupClient uid table = none → applyPongEvent table (.pong p, uid) = none) := by
  refine ⟨rfl, rfl, ?_, ?_⟩
  · intro h
    simp [ping_client, h]
  · intro h
    simp [applyPongEvent, h]

/-- Witness for C7 at concrete inputs. -/
theorem fatal_condition_policy_witness :
    ping_client 26 false ⟨0, 0, false⟩ = none ∧
    applyPongEvent [] (Protocol.pong ⟨5⟩, 9) = none :=
  ⟨(fatal_condition_policy [] 26 9 ⟨0, 0, false⟩ [] ⟨5⟩).2.2.1 (by decide),
   (fatal_condition_policy [] 26 9 ⟨0, 0, false⟩ [] ⟨5⟩).2.2.2 rfl⟩

/-- C8 (confirmed): the per-readiness-event drain loop treats a bincode
decode failure as disconnection (sets `client_disconnect`, stops, no
panic), retries immediately on `Interrupted` (the iteration is a no-op),
and ends the drain on `WouldBlock` without marking the connection
disconnected. -/
theorem read_loop_error_policy (rs : List ReadResult) :
    drainLoop (.errBincode :: rs) = ⟨[], [], true, false⟩ ∧
    drainLoop (.errInterrupted :: rs) = drainLoop rs ∧
    drainLoop (.errWouldBlock :: rs) = ⟨[], [], false, false⟩ := by
  exact ⟨rfl, rfl, rfl⟩

/-- C9 (confirmed): for every message dequeued by the writer task, when
all three I/O stages succeed the bytes written are the 4-byte big-endian
length prefix whose value is exactly the encoded payload's byte count
(given the count fits in a u32, as `packet.len() as u32` requires),
followed by the payload, and only then the next message's frame (flush
ordered before the next dequeue); a failure at the prefix write, payload
write or flush stage terminates the task with at most a prefix of the
current frame written and nothing of any later message. -/
theorem writer_frame_emission (p : Protocol) (rest : List (Protocol × WriteFate))
    (f : WriteFate) (h : (encodeProtocol p).length < 256 ^ 4) :
    writerLoop ((p, ⟨true, true, true⟩) :: rest) =
      toBE 4 (encodeProtocol p).length ++ encodeProtocol p ++ writerLoop rest ∧
    fromBE (toBE 4 (encodeProtocol p).length) = (encodeProtocol p).length ∧
    (f.headerOk = false → writerLoop ((p, f) :: rest) = []) ∧
    (f.headerOk = true → f.bodyOk = false →
      writerLoop ((p, f) :: rest) = toBE 4 (encodeProtocol p).length) ∧
    (f.headerOk = true → f.bodyOk = true → f.flushOk = false →
      writerLoop ((p, f) :: rest) =
        toBE 4 (encodeProtocol p).length ++ encodeProtocol p) := by
  refine ⟨by simp [writerLoop], ?_, ?_, ?_, ?_⟩
  · rw [toBE, fromBE, List.reverse_reverse, fromLE_toLE h]
  · intro hh
    simp [writerLoop, hh]
  · intro hh hb
    simp [writerLoop, hh, hb]
  · intro hh hb hf
    simp [writerLoop, hh, hb, hf]

/-- Witness for C9 at a concrete message and a concrete flush failure. -/
theorem writer_frame_emission_witness :
    fromBE (toBE 4 (encodeProtocol Protocol.disconnect).length) =
      (encodeProtocol Protocol.disconnect).length ∧
    writerLoop [(Protocol.disconnect, ⟨true, true, false⟩)] =
      toBE 4 (encodeProtocol Protocol.disconnect).length ++
        encodeProtocol Protocol.disconnect :=
  ⟨(writer_frame_emission Protocol.disconnect [] ⟨true, true, false⟩ (by decide)).2.1,
   (writer_frame_emission Protocol.disconnect [] ⟨true, true, false⟩
      (by decide)).2.2.2.2 rfl rfl rfl⟩

/-- C10 (confirmed): every poller token handed to an accepted connection
is the counter value after the `total_connections += 1` increment, so
(absent counter wraparound) its numeric value is at least 1 and in
particular never equals the listening-socket token `SERVER = Token(0)` —
the SERVER-vs-connection dispatch on tokens is unambiguous. -/
theorem connection_tokens_nonzero (t : Nat) (rs : List AcceptResult)
    (h : t + rs.length < 2 ^ 64) :
    ∀ a ∈ (accept_loop t rs).2, 1 ≤ a.token ∧ a.token ≠ SERVER := by
  obtain ⟨_, hm, _⟩ := accept_loop_spec t rs h
  intro a ha
  obtain ⟨h1, _, h3⟩ := hm a ha
  constructor
  · omega
  · simp only [SERVER]
    omega

/-- Witness for C10: the first two connections of a fresh server. -/
theorem connection_tokens_nonzero_witness :
    0 + ([AcceptResult.conn, .conn] : List AcceptResult).length < 2 ^ 64 ∧
    ∀ a ∈ (accept_loop 0 [AcceptResult.conn, .conn]).2,
      1 ≤ a.token ∧ a.token ≠ SERVER :=
  ⟨by norm_num, connection_tokens_nonzero 0 [AcceptResult.conn, .conn] (by norm_num)⟩

